import Mathlib

/-!
# Verification of the smart-resume-analyser backend

Shallow embedding of the Express backend (`server.js`) of the
smart-resume-analyser repository, together with proofs of the behavioural
properties stated in its specification.

Modelling conventions:
* JavaScript strings are modelled as `List Char` (`Str`).
* `String.prototype.toLowerCase` is modelled per character by
  `Char.toLower`; the two agree on all ASCII text.
* The regex class `\s` of JavaScript is modelled by `isJsWs`, listing the
  exact character set that `\s` matches.
* `Math.round((m / n) * 100)` is modelled bit-faithfully (`jsMathRoundPct`):
  the division and the multiplication by 100 are each rounded to binary64
  by round-to-nearest-even, computed in exact integer arithmetic, and
  `Math.round` (ties toward `+∞`) is applied to the exact value of the
  resulting double.  The specification's exact round-half-up of
  `100 * m / n` is kept separately as `roundPct` for comparison; the two
  differ at exact-halfway ratios such as `m = 23, n = 40`.
* External collaborators (the PDF/DOCX parsers, the UTF-8 decoder, the
  Firestore document store, the Gemini HTTP call, `JSON.parse`) are passed
  to the embedded handlers as explicit function arguments.
-/

namespace SRA

/-- JavaScript strings, modelled as lists of characters. -/
abbrev Str := List Char

/-- The character set matched by the JavaScript regex class `\s`
(whitespace, line terminators, and Unicode space separators). -/
def isJsWs (c : Char) : Bool :=
  c == ' ' || c == '\t' || c == '\n' || c == '\x0b' || c == '\x0c' ||
  c == '\r' || c == '\u00A0' || c == '\u1680' ||
  ('\u2000' ≤ c && c ≤ '\u200A') ||
  c == '\u2028' || c == '\u2029' || c == '\u202F' || c == '\u205F' ||
  c == '\u3000' || c == '\uFEFF'

/-- `String.prototype.trim`: strip leading and trailing whitespace. -/
def jsTrim (t : Str) : Str :=
  ((t.dropWhile isJsWs).reverse.dropWhile isJsWs).reverse

/-- Auxiliary for `.replace(/\s+/g, ' ')`: `prevWs` records whether the
previous character belonged to the current whitespace run. -/
def collapseWsAux : Bool → Str → Str
  | _, [] => []
  | prevWs, c :: cs =>
    if isJsWs c then
      (if prevWs then [] else [' ']) ++ collapseWsAux true cs
    else
      c :: collapseWsAux false cs

/-- `.replace(/\s+/g, ' ')`: collapse each maximal whitespace run to one
space. -/
def collapseWs (t : Str) : Str := collapseWsAux false t

/-- `String.prototype.toLowerCase`, per character. -/
def jsToLower (t : Str) : Str := t.map Char.toLower

/-- The character class `[a-z0-9\s,]` kept by the normalisation regex. -/
def isKept (c : Char) : Bool :=
  ('a' ≤ c && c ≤ 'z') || ('0' ≤ c && c ≤ '9') || isJsWs c || c == ','

/-- `normalize` from `matchResumeToJob`:
`text.toLowerCase().replace(/[^a-z0-9\s,]/g, ' ').replace(/\s+/g, ' ').trim()`. -/
def normalize (text : Str) : Str :=
  jsTrim (collapseWs ((jsToLower text).map (fun c => if isKept c then c else ' ')))

/-- Auxiliary for `String.prototype.split(',')`; `cur` holds the current
piece, reversed. -/
def splitCommaAux : Str → Str → List Str
  | cur, [] => [cur.reverse]
  | cur, c :: cs =>
    if c == ',' then cur.reverse :: splitCommaAux [] cs
    else splitCommaAux (c :: cur) cs

/-- `String.prototype.split(',')`. -/
def splitComma (t : Str) : List Str := splitCommaAux [] t

/-- `List.isPrefixOf`, spelt out for `Str`. -/
def strIsPrefixOf : Str → Str → Bool
  | [], _ => true
  | _ :: _, [] => false
  | c :: cs, d :: ds => c == d && strIsPrefixOf cs ds

/-- `String.prototype.includes`: `needle` occurs in `hay` as a contiguous
substring. -/
def containsSub (hay needle : Str) : Bool :=
  match hay with
  | [] => needle.isEmpty
  | _ :: rest => strIsPrefixOf needle hay || containsSub rest needle

/-- The parsed required-skill sequence of `matchResumeToJob`:
`jobSkillsString.toLowerCase().split(',').map(s => s.trim()).filter(s => s.length > 0)`. -/
def parseSkills (jobSkillsString : Str) : List Str :=
  ((splitComma (jsToLower jobSkillsString)).map jsTrim).filter
    (fun skill => skill.length > 0)

/-- Result record of `matchResumeToJob`. -/
structure MatchResult where
  matchScore : Nat
  matchedSkills : List Str
  missingSkills : List Str
deriving Repr, DecidableEq

/-- The `forEach` loop of `matchResumeToJob`: push each required skill
onto `matchedSkills` or `missingSkills` according to
`normalizedResume.includes(skill)`. -/
def classifySkills (normalizedResume : Str) (requiredSkills : List Str) :
    List Str × List Str :=
  requiredSkills.foldl
    (fun acc skill =>
      if containsSub normalizedResume skill then (acc.1 ++ [skill], acc.2)
      else (acc.1, acc.2 ++ [skill]))
    ([], [])

/-- Fuel-bounded floor of the base-2 logarithm (`log2f fuel n = ⌊log₂ n⌋`
for `1 ≤ n < 2^fuel`; `0` for `n ≤ 1`). -/
def log2f : Nat → Nat → Nat
  | 0, _ => 0
  | fuel + 1, n => if n ≤ 1 then 0 else log2f fuel (n / 2) + 1

/-- The value of the IEEE-754 binary64 round-to-nearest-even result of
`p / q`, as a dyadic rational: `rneDivDyadic p q = (M, sh)` means the
double's exact value is `M / 2 ^ sh`.  The quotient is scaled to a 53-bit
significand and rounded to nearest, ties to even, using exact integer
arithmetic (faithful for quotients in `[2^-64, 2^53)` or zero, which
covers every quantity in the score computation for any skill list of
fewer than `2^64` entries). -/
def rneDivDyadic (p q : Nat) : Nat × Nat :=
  if p = 0 then (0, 116)
  else
    let A := p * 2 ^ 64 / q
    let L := log2f 256 A
    let sh := 64 + 52 - L
    let num := p * 2 ^ sh
    let d := num / q
    let r := num % q
    let M :=
      if 2 * r > q then d + 1
      else if 2 * r < q then d
      else if d % 2 = 1 then d + 1 else d
    (M, sh)

/-- `Math.round((matched / required) * 100)` exactly as the engine
evaluates it: binary64 division `m / n`, binary64 multiplication of the
result by `100`, then ECMAScript `Math.round` (nearest integer, ties
toward `+∞`) applied to the exact value of the resulting double. -/
def jsMathRoundPct (m n : Nat) : Nat :=
  let d1 := rneDivDyadic m n
  let d2 := rneDivDyadic (d1.1 * 100) (2 ^ d1.2)
  let ip := d2.1 / 2 ^ d2.2
  let fr := d2.1 % 2 ^ d2.2
  if 2 * fr ≥ 2 ^ d2.2 then ip + 1 else ip

/-- The specification's score formula, `round(100 * m / n)` as exact
round-half-up on the rational `100 * m / n`.  This is the spec-side
definition, kept for comparison with the engine's double-precision
evaluation `jsMathRoundPct`; the two differ at exact-halfway ratios whose
intermediate double rounding falls below the half (e.g. `m = 23`,
`n = 40`). -/
def roundPct (m n : Nat) : Nat := (200 * m + n) / (2 * n)

/-- `matchResumeToJob(resumeText, jobSkillsString)` from `server.js`. -/
def matchResumeToJob (resumeText jobSkillsString : Str) : MatchResult :=
  let normalizedResume := normalize resumeText
  let requiredSkills := parseSkills jobSkillsString
  if requiredSkills.length = 0 then
    { matchScore := 100, matchedSkills := [], missingSkills := [] }
  else
    let cls := classifySkills normalizedResume requiredSkills
    { matchScore := jsMathRoundPct cls.1.length requiredSkills.length,
      matchedSkills := cls.1,
      missingSkills := cls.2 }

example : normalize "I know javascript well!".data = "i know javascript well".data := by decide
example : parseSkills "React, React, Node".data =
    ["react".data, "react".data, "node".data] := by decide
example : matchResumeToJob "I know React only".data "React, React, Node".data =
    { matchScore := 67,
      matchedSkills := ["react".data, "react".data],
      missingSkills := ["node".data] } := by decide
example : matchResumeToJob "anything".data " , ,".data =
    { matchScore := 100, matchedSkills := [], missingSkills := [] } := by decide
example : containsSub (normalize "I know javascript well".data) "java".data = true := by decide
example : matchResumeToJob "c plus plus".data "c++".data =
    { matchScore := 0, matchedSkills := [], missingSkills := ["c++".data] } := by decide

/-! ## Applicant ranking (`GET /api/applicants/:jobId`) -/

/-- An identity record from the `users` collection (only the fields the
ranking endpoint reads). -/
structure UserRec where
  email : Str
  role : Str
deriving Repr, DecidableEq

/-- A job document from the `jobs` collection (only the field the ranking
endpoint reads). -/
structure JobRec where
  skills : Str
deriving Repr, DecidableEq

/-- One element of the `applicantsList` built by the ranking endpoint. -/
structure ApplicantEntry where
  userId : Str
  email : Str
  matchScore : Nat
  matchedSkills : List Str
deriving Repr, DecidableEq

/-- The role string the ranking endpoint filters on. -/
def jobSeekerRole : Str := "Job Seeker".data

/-- The loop over `resumesSnapshot.docs`: keep a resume only when its
user id resolves in `usersMap` to a record whose `role` is `'Job Seeker'`,
and score it against the job's skills.  `resumes` is the snapshot as a
sequence of `(docId, resumeText)` pairs in snapshot order; `users` is the
lookup function the `usersMap` reduce builds. -/
def buildApplicants (resumes : List (Str × Str)) (users : Str → Option UserRec)
    (jobSkills : Str) : List ApplicantEntry :=
  resumes.foldl
    (fun acc r =>
      match users r.1 with
      | some u =>
        if u.role = jobSeekerRole then
          let m := matchResumeToJob r.2 jobSkills
          acc ++ [{ userId := r.1, email := u.email,
                    matchScore := m.matchScore,
                    matchedSkills := m.matchedSkills }]
        else acc
      | none => acc)
    []

/-- Insert `a` after every already-placed entry whose score is at least
`a.matchScore` and before the first entry with a strictly smaller score. -/
def insertByScore (a : ApplicantEntry) : List ApplicantEntry → List ApplicantEntry
  | [] => [a]
  | x :: xs =>
    if x.matchScore < a.matchScore then a :: x :: xs
    else x :: insertByScore a xs

/-- `applicantsList.sort((a, b) => b.matchScore - a.matchScore)`.
Per ECMAScript 2019, `Array.prototype.sort` with this consistent
comparator produces the unique stable descending-by-score permutation,
computed here by stable insertion in input order. -/
def sortByScoreDesc (l : List ApplicantEntry) : List ApplicantEntry :=
  l.foldl (fun acc a => insertByScore a acc) []

/-- Failure of the ranking endpoint (`404 Job not found.`). -/
inductive RankError where
  | jobNotFound
deriving Repr, DecidableEq

/-- `GET /api/applicants/:jobId`: resolve the job, build the filtered
applicant list, and sort it by score descending. -/
def rankApplicants (jobs : Str → Option JobRec) (jobId : Str)
    (resumes : List (Str × Str)) (users : Str → Option UserRec) :
    Except RankError (List ApplicantEntry) :=
  match jobs jobId with
  | none => Except.error RankError.jobNotFound
  | some job => Except.ok (sortByScoreDesc (buildApplicants resumes users job.skills))

/-! ## AI content gateway (`/api/ai/coverletter`, `/api/ai/interview`,
`/api/ai/suggestions`) -/

/-- JSON values, the possible results of `JSON.parse`. -/
inductive Json where
  | null
  | bool (b : Bool)
  | num (n : Int)
  | str (s : Str)
  | arr (elems : List Json)
  | obj (fields : List (Str × Json))
deriving Repr

/-- Failures of the AI endpoints: `400` for a missing request field,
`404` for the missing-resume precondition, `500` when
`generateGeminiContent` throws. -/
inductive AiError where
  | badRequest
  | resumeRequired
  | generationUnavailable
deriving Repr, DecidableEq

/-- The external generative-language collaborator,
`generateGeminiContent(systemPrompt, userQuery)`: either the extracted
text of the first candidate, or a thrown error message (missing key,
network failure, or no text content in the response). -/
abbrev Collaborator := Str → Str → Except Str Str

/-- System prompt of `POST /api/ai/coverletter`. -/
def coverLetterSystemPrompt : Str :=
  "You are a professional career coach and copywriter. Your task is to generate a concise, single-page cover letter based on the provided resume and job details. Focus only on the most relevant experience and skills that match the job description.".data

/-- User query of `POST /api/ai/coverletter`. -/
def coverLetterQuery (jobTitle company jobDescription resumeText : Str) : Str :=
  "Using the following resume text, write a cover letter for the job titled \"".data ++
  jobTitle ++ "\" at \"".data ++ company ++ "\". The job description is: \"".data ++
  jobDescription ++ "\". Resume Text: \"".data ++ resumeText ++
  "\". Only return the body of the letter, starting with the salutation and ending with the closing.".data

/-- `POST /api/ai/coverletter`.  Returns the response together with the
number of calls made to the external collaborator. -/
def coverLetterHandler (store : Str → Option Str) (collab : Collaborator)
    (userId jobTitle jobDescription company : Str) :
    Except AiError Str × Nat :=
  if userId.isEmpty then (Except.error AiError.badRequest, 0)
  else
    match store userId with
    | none => (Except.error AiError.resumeRequired, 0)
    | some resumeText =>
      if resumeText.isEmpty then (Except.error AiError.resumeRequired, 0)
      else
        match collab coverLetterSystemPrompt
            (coverLetterQuery jobTitle company jobDescription resumeText) with
        | Except.ok letterText => (Except.ok letterText, 1)
        | Except.error _ => (Except.error AiError.generationUnavailable, 1)

/-- System prompt of `POST /api/ai/interview`. -/
def interviewSystemPrompt : Str :=
  "You are an expert HR interviewer. Your task is to generate 5 challenging and specific behavioral interview questions (using the STAR method format) that are tailored to the candidate\x27s resume and the job requirements. Format the output as a numbered list of questions, with no introductory text.".data

/-- User query of `POST /api/ai/interview`. -/
def interviewQuery (jobTitle jobDescription resumeText : Str) : Str :=
  "Generate 5 behavioral interview questions for the job titled \"".data ++
  jobTitle ++ "\". The job description is: \"".data ++ jobDescription ++
  "\". The candidate\x27s Resume Text is: \"".data ++ resumeText ++ "\".".data

/-- `POST /api/ai/interview`.  Returns the response together with the
number of calls made to the external collaborator. -/
def interviewHandler (store : Str → Option Str) (collab : Collaborator)
    (userId jobTitle jobDescription : Str) :
    Except AiError Str × Nat :=
  if userId.isEmpty then (Except.error AiError.badRequest, 0)
  else
    match store userId with
    | none => (Except.error AiError.resumeRequired, 0)
    | some resumeText =>
      if resumeText.isEmpty then (Except.error AiError.resumeRequired, 0)
      else
        match collab interviewSystemPrompt
            (interviewQuery jobTitle jobDescription resumeText) with
        | Except.ok questionsText => (Except.ok questionsText, 1)
        | Except.error _ => (Except.error AiError.generationUnavailable, 1)

/-- One entry of the `allJobs` array sent to `POST /api/ai/suggestions`. -/
structure JobInfo where
  id : Str
  title : Str
  skills : Str
deriving Repr

/-- `allJobs.map(job => ...).join('; ')` from the suggestions endpoint. -/
def jobListString (allJobs : List JobInfo) : Str :=
  List.intercalate "; ".data
    (allJobs.map (fun job =>
      "ID: ".data ++ job.id ++ ", Title: ".data ++ job.title ++
      ", Skills: ".data ++ job.skills))

/-- System prompt of `POST /api/ai/suggestions`. -/
def suggestionsSystemPrompt : Str :=
  "You are a job recommendation engine. Analyze the Resume Text and the list of available jobs. Select the top 3 job IDs that are the *best semantic fit* for the candidate\x27s experience. Return ONLY a JSON array of the recommended job IDs, using the format: [\"ID_1\", \"ID_2\", \"ID_3\"].".data

/-- User query of `POST /api/ai/suggestions`. -/
def suggestionsQuery (resumeText : Str) (allJobs : List JobInfo) : Str :=
  "Candidate Resume Text: \"".data ++ resumeText ++
  "\". Available Jobs (ID, Title, Skills): ".data ++ jobListString allJobs ++ ".".data

/-- `POST /api/ai/suggestions`.  `jsParse` is `JSON.parse` (`none` models
a parse exception).  Returns the response together with the number of
calls made to the external collaborator. -/
def suggestionsHandler (store : Str → Option Str) (collab : Collaborator)
    (jsParse : Str → Option Json) (userId : Str) (allJobs : List JobInfo) :
    Except AiError (List Json) × Nat :=
  if userId.isEmpty || allJobs.isEmpty then (Except.error AiError.badRequest, 0)
  else
    match store userId with
    | none => (Except.error AiError.resumeRequired, 0)
    | some resumeText =>
      if resumeText.isEmpty then (Except.error AiError.resumeRequired, 0)
      else
        match collab suggestionsSystemPrompt (suggestionsQuery resumeText allJobs) with
        | Except.error _ => (Except.error AiError.generationUnavailable, 1)
        | Except.ok jsonResponse =>
          match jsParse (jsTrim jsonResponse) with
          | some (Json.arr recommendedIds) => (Except.ok recommendedIds, 1)
          | _ => (Except.ok [], 1)

/-! ## Document extraction (`POST /api/resumes/upload`) -/

/-- Binary file content, as a sequence of byte values. -/
abbrev Bytes := List Nat

/-- The three recognised media types. -/
def pdfMime : Str := "application/pdf".data

/-- Media type of a word-processor-XML package. -/
def docxMime : Str :=
  "application/vnd.openxmlformats-officedocument.wordprocessingml.document".data

/-- Media type of plain text. -/
def textMime : Str := "text/plain".data

/-- Message of the error thrown for an unrecognised media type. -/
def unsupportedFormatMsg : Str :=
  "Unsupported file type. Please use PDF, DOCX, or TXT.".data

/-- Message of the error thrown when the parsed text has no
non-whitespace character. -/
def extractionFailedMsg : Str :=
  "Could not extract text from the document. Please ensure the file is not corrupted.".data

/-- The parsing logic of `POST /api/resumes/upload`: dispatch on the
declared media type, then reject text with no non-whitespace character.
`pdfParse` and `docxParse` are the external `pdf-parse` and `mammoth`
parsers (an `error` models a thrown parser exception); `utf8Decode` is
`Buffer.prototype.toString('utf-8')`.  Errors carry the thrown message. -/
def extractResumeText (pdfParse docxParse : Bytes → Except Str Str)
    (utf8Decode : Bytes → Str) (fileMimeType : Str) (dataBuffer : Bytes) :
    Except Str Str :=
  let parsed : Except Str Str :=
    if fileMimeType = pdfMime then pdfParse dataBuffer
    else if fileMimeType = docxMime then docxParse dataBuffer
    else if fileMimeType = textMime then Except.ok (utf8Decode dataBuffer)
    else Except.error unsupportedFormatMsg
  match parsed with
  | Except.error e => Except.error e
  | Except.ok resumeText =>
    if (jsTrim resumeText).isEmpty then Except.error extractionFailedMsg
    else Except.ok resumeText

/-! ## Lemmas about the skill matcher -/

theorem classifySkills_go (nr : Str) (l : List Str) :
    ∀ acc : List Str × List Str,
      List.foldl
        (fun acc skill =>
          if containsSub nr skill then (acc.1 ++ [skill], acc.2)
          else (acc.1, acc.2 ++ [skill]))
        acc l =
      (acc.1 ++ l.filter (fun s => containsSub nr s),
       acc.2 ++ l.filter (fun s => !containsSub nr s)) := by
  induction l with
  | nil => intro acc; simp
  | cons skill l ih =>
    intro acc
    by_cases h : containsSub nr skill = true
    · simp [h, ih, List.filter_cons]
    · have h' : containsSub nr skill = false := by simpa using h
      simp [h', ih, List.filter_cons]

theorem classifySkills_eq (nr : Str) (l : List Str) :
    classifySkills nr l =
      (l.filter (fun s => containsSub nr s),
       l.filter (fun s => !containsSub nr s)) := by
  simpa [classifySkills] using classifySkills_go nr l ([], [])

theorem matchResumeToJob_of_empty (r csv : Str) (h : parseSkills csv = []) :
    matchResumeToJob r csv =
      { matchScore := 100, matchedSkills := [], missingSkills := [] } := by
  simp [matchResumeToJob, h]

theorem matchResumeToJob_of_ne (r csv : Str) (h : parseSkills csv ≠ []) :
    matchResumeToJob r csv =
      { matchScore :=
          jsMathRoundPct
            ((parseSkills csv).filter (fun s => containsSub (normalize r) s)).length
            (parseSkills csv).length,
        matchedSkills :=
          (parseSkills csv).filter (fun s => containsSub (normalize r) s),
        missingSkills :=
          (parseSkills csv).filter (fun s => !containsSub (normalize r) s) } := by
  have hlen : ¬(parseSkills csv).length = 0 := by
    simpa [List.length_eq_zero] using h
  simp [matchResumeToJob, hlen, classifySkills_eq]

theorem length_filter_split {α : Type} (l : List α) (p : α → Bool) :
    (l.filter p).length + (l.filter (fun a => !p a)).length = l.length := by
  induction l with
  | nil => rfl
  | cons a l ih =>
    by_cases h : p a <;> simp [List.filter_cons, h, ← ih] <;> omega

/-! ## Character-level lemmas, for the never-matchable-token claim -/

theorem strIsPrefixOf_mem :
    ∀ needle hay : Str, strIsPrefixOf needle hay = true →
      ∀ d ∈ needle, d ∈ hay := by
  intro needle
  induction needle with
  | nil => intro hay _ d hd; exact absurd hd (List.not_mem_nil d)
  | cons c cs ih =>
    intro hay hpre d hd
    match hay with
    | [] => exact absurd hpre (by simp [strIsPrefixOf])
    | e :: es =>
      simp only [strIsPrefixOf, Bool.and_eq_true, beq_iff_eq] at hpre
      rcases List.mem_cons.mp hd with rfl | hd'
      · exact List.mem_cons.mpr (Or.inl hpre.1)
      · exact List.mem_cons.mpr (Or.inr (ih es hpre.2 d hd'))

theorem containsSub_mem :
    ∀ hay needle : Str, containsSub hay needle = true →
      ∀ d ∈ needle, d ∈ hay := by
  intro hay
  induction hay with
  | nil =>
    intro needle h d hd
    have : needle = [] := by simpa [containsSub, List.isEmpty_iff] using h
    subst this
    exact absurd hd (List.not_mem_nil d)
  | cons e es ih =>
    intro needle h d hd
    simp only [containsSub, Bool.or_eq_true] at h
    rcases h with h | h
    · exact strIsPrefixOf_mem needle (e :: es) h d hd
    · exact List.mem_cons.mpr (Or.inr (ih needle h d hd))

theorem collapseWsAux_chars :
    ∀ (l : Str) (b : Bool) (d : Char), d ∈ collapseWsAux b l →
      d = ' ' ∨ (d ∈ l ∧ isJsWs d = false) := by
  intro l
  induction l with
  | nil => intro b d hd; exact absurd hd (List.not_mem_nil d)
  | cons c cs ih =>
    intro b d hd
    by_cases hc : isJsWs c = true
    · simp only [collapseWsAux, hc, if_true] at hd
      rcases List.mem_append.mp hd with h1 | h2
      · left
        cases b with
        | false => simpa using h1
        | true => exact absurd h1 (List.not_mem_nil d)
      · rcases ih true d h2 with h | ⟨hm, hw⟩
        · exact Or.inl h
        · exact Or.inr ⟨List.mem_cons.mpr (Or.inr hm), hw⟩
    · have hc' : isJsWs c = false := by simpa using hc
      simp only [collapseWsAux, hc', if_neg, Bool.false_eq_true, not_false_iff] at hd
      rcases List.mem_cons.mp hd with rfl | hd'
      · exact Or.inr ⟨List.mem_cons.mpr (Or.inl rfl), hc'⟩
      · rcases ih false d hd' with h | ⟨hm, hw⟩
        · exact Or.inl h
        · exact Or.inr ⟨List.mem_cons.mpr (Or.inr hm), hw⟩

theorem mem_of_mem_jsTrim (d : Char) (t : Str) (h : d ∈ jsTrim t) : d ∈ t := by
  unfold jsTrim at h
  rw [List.mem_reverse] at h
  have h1 := (List.dropWhile_sublist isJsWs).mem h
  rw [List.mem_reverse] at h1
  exact (List.dropWhile_sublist isJsWs).mem h1

theorem normalize_chars (t : Str) (d : Char) (h : d ∈ normalize t) :
    ('a' ≤ d ∧ d ≤ 'z') ∨ ('0' ≤ d ∧ d ≤ '9') ∨ d = ',' ∨ d = ' ' := by
  unfold normalize at h
  have h1 := mem_of_mem_jsTrim d _ h
  rcases collapseWsAux_chars _ false d h1 with hsp | ⟨hm, hw⟩
  · exact Or.inr (Or.inr (Or.inr hsp))
  · rcases List.mem_map.mp hm with ⟨c, _, hc⟩
    by_cases hk : isKept c = true
    · rw [if_pos hk] at hc
      subst hc
      simp only [isKept, Bool.or_eq_true, Bool.and_eq_true, decide_eq_true_eq,
        beq_iff_eq, hw, Bool.false_eq_true, or_false] at hk
      tauto
    · rw [if_neg hk] at hc
      exact Or.inr (Or.inr (Or.inr hc.symm))

theorem splitCommaAux_no_comma :
    ∀ (t cur : Str), (∀ d ∈ cur, d ≠ ',') →
      ∀ p ∈ splitCommaAux cur t, ∀ d ∈ p, d ≠ ',' := by
  intro t
  induction t with
  | nil =>
    intro cur hcur p hp d hd
    simp only [splitCommaAux, List.mem_singleton] at hp
    subst hp
    exact hcur d (List.mem_reverse.mp hd)
  | cons c cs ih =>
    intro cur hcur p hp d hd
    by_cases hc : (c == ',') = true
    · simp only [splitCommaAux, hc, if_true] at hp
      rcases List.mem_cons.mp hp with rfl | hp'
      · exact hcur d (List.mem_reverse.mp hd)
      · exact ih [] (by intro d hd'; exact absurd hd' (List.not_mem_nil d)) p hp' d hd
    · simp only [splitCommaAux, hc, Bool.false_eq_true, if_neg, not_false_iff] at hp
      refine ih (c :: cur) ?_ p hp d hd
      intro e he
      rcases List.mem_cons.mp he with rfl | he'
      · simpa using hc
      · exact hcur e he'

theorem parseSkills_no_comma (csv s : Str) (hs : s ∈ parseSkills csv) :
    ∀ d ∈ s, d ≠ ',' := by
  intro d hd
  unfold parseSkills at hs
  have hs1 := List.mem_filter.mp hs
  rcases List.mem_map.mp hs1.1 with ⟨p, hp, hps⟩
  subst hps
  exact splitCommaAux_no_comma _ []
    (by intro e he; exact absurd he (List.not_mem_nil e)) p hp d
    (mem_of_mem_jsTrim d p hd)

/-! ## Claim theorems about the skill matcher -/

/-- **C1 (amended)**: for every `resumeText` and `requiredSkillsCsv`, if
the parsed skill list is empty the result is exactly
`{matchScore: 100, matchedSkills: [], missingSkills: []}`; otherwise, with
`N` the parsed list's length, `matchedSkills.length + missingSkills.length
= N`, the union of `matchedSkills` and `missingSkills` equals the parsed
list as a set with the two disjoint, and `matchScore` is `Math.round`
applied to the double-precision evaluation of
`(matchedSkills.length / N) * 100` (computed bit-faithfully by
`jsMathRoundPct`) — not exact round-half-up of `100 * m / N`, from which
it differs at exact-halfway ratios (see
`matchScore_not_half_up_counterexample`). -/
theorem matchScore_contract (resumeText jobSkillsString : Str) :
    (parseSkills jobSkillsString = [] →
      matchResumeToJob resumeText jobSkillsString =
        { matchScore := 100, matchedSkills := [], missingSkills := [] }) ∧
    ((matchResumeToJob resumeText jobSkillsString).matchedSkills.length +
        (matchResumeToJob resumeText jobSkillsString).missingSkills.length =
      (parseSkills jobSkillsString).length) ∧
    (∀ s : Str,
      (s ∈ (matchResumeToJob resumeText jobSkillsString).matchedSkills ∨
          s ∈ (matchResumeToJob resumeText jobSkillsString).missingSkills) ↔
        s ∈ parseSkills jobSkillsString) ∧
    (∀ s : Str,
      ¬(s ∈ (matchResumeToJob resumeText jobSkillsString).matchedSkills ∧
          s ∈ (matchResumeToJob resumeText jobSkillsString).missingSkills)) ∧
    (parseSkills jobSkillsString ≠ [] →
      (matchResumeToJob resumeText jobSkillsString).matchScore =
        jsMathRoundPct
          (matchResumeToJob resumeText jobSkillsString).matchedSkills.length
          (parseSkills jobSkillsString).length) := by
  by_cases h : parseSkills jobSkillsString = []
  · refine ⟨fun _ => matchResumeToJob_of_empty _ _ h, ?_, ?_, ?_, ?_⟩ <;>
      simp [matchResumeToJob_of_empty _ _ h, h]
  · have e := matchResumeToJob_of_ne resumeText jobSkillsString h
    refine ⟨fun h0 => absurd h0 h, ?_, ?_, ?_, fun _ => ?_⟩
    · simp only [e]
      exact length_filter_split _ _
    · intro s
      simp only [e, List.mem_filter]
      constructor
      · rintro (⟨hm, _⟩ | ⟨hm, _⟩) <;> exact hm
      · intro hm
        by_cases hp : containsSub (normalize resumeText) s = true
        · exact Or.inl ⟨hm, hp⟩
        · exact Or.inr ⟨hm, by simpa using hp⟩
    · intro s
      simp only [e, List.mem_filter, Bool.not_eq_true']
      rintro ⟨⟨_, h1⟩, _, h2⟩
      rw [h1] at h2
      exact Bool.noConfusion h2
    · simp only [e]

/-- Witness for `matchScore_contract`: both the empty-skill-list clause
and the score clause, at concrete inputs. -/
theorem matchScore_contract_witness :
    (parseSkills " , ".data = [] ∧
      matchResumeToJob "anything".data " , ".data =
        { matchScore := 100, matchedSkills := [], missingSkills := [] }) ∧
    (parseSkills "React, Node".data ≠ [] ∧
      (matchResumeToJob "i know react".data "React, Node".data).matchScore =
        jsMathRoundPct
          (matchResumeToJob "i know react".data "React, Node".data).matchedSkills.length
          (parseSkills "React, Node".data).length) :=
  ⟨⟨by decide, (matchScore_contract "anything".data " , ".data).1 (by decide)⟩,
   ⟨by decide,
    (matchScore_contract "i know react".data "React, Node".data).2.2.2.2 (by decide)⟩⟩

/-- Counterexample to **C1** as stated: with forty required skills of
which exactly twenty-three occur in the résumé, the engine's
double-precision `(23 / 40) * 100` evaluates to `57.49999999999999`, so
`Math.round` yields `57`, while exact round-half-up of `100 * 23 / 40 =
57.5` yields `58` — the claim's round-half-up score clause fails at this
input. -/
theorem matchScore_not_half_up_counterexample :
    (matchResumeToJob
      "k01 k02 k03 k04 k05 k06 k07 k08 k09 k10 k11 k12 k13 k14 k15 k16 k17 k18 k19 k20 k21 k22 k23".data
      "k01, k02, k03, k04, k05, k06, k07, k08, k09, k10, k11, k12, k13, k14, k15, k16, k17, k18, k19, k20, k21, k22, k23, k24, k25, k26, k27, k28, k29, k30, k31, k32, k33, k34, k35, k36, k37, k38, k39, k40".data).matchedSkills.length
      = 23 ∧
    (parseSkills
      "k01, k02, k03, k04, k05, k06, k07, k08, k09, k10, k11, k12, k13, k14, k15, k16, k17, k18, k19, k20, k21, k22, k23, k24, k25, k26, k27, k28, k29, k30, k31, k32, k33, k34, k35, k36, k37, k38, k39, k40".data).length
      = 40 ∧
    (matchResumeToJob
      "k01 k02 k03 k04 k05 k06 k07 k08 k09 k10 k11 k12 k13 k14 k15 k16 k17 k18 k19 k20 k21 k22 k23".data
      "k01, k02, k03, k04, k05, k06, k07, k08, k09, k10, k11, k12, k13, k14, k15, k16, k17, k18, k19, k20, k21, k22, k23, k24, k25, k26, k27, k28, k29, k30, k31, k32, k33, k34, k35, k36, k37, k38, k39, k40".data).matchScore
      = 57 ∧
    roundPct 23 40 = 58 ∧
    (matchResumeToJob
      "k01 k02 k03 k04 k05 k06 k07 k08 k09 k10 k11 k12 k13 k14 k15 k16 k17 k18 k19 k20 k21 k22 k23".data
      "k01, k02, k03, k04, k05, k06, k07, k08, k09, k10, k11, k12, k13, k14, k15, k16, k17, k18, k19, k20, k21, k22, k23, k24, k25, k26, k27, k28, k29, k30, k31, k32, k33, k34, k35, k36, k37, k38, k39, k40".data).matchScore
      ≠ roundPct 23 40 :=
  ⟨by decide, by decide, by decide, by decide, by decide⟩

/-- **C2**: a parsed required skill lands in `matchedSkills` iff the
normalised résumé text contains it as a contiguous substring. -/
theorem matched_iff_substring (resumeText jobSkillsString s : Str)
    (hs : s ∈ parseSkills jobSkillsString) :
    s ∈ (matchResumeToJob resumeText jobSkillsString).matchedSkills ↔
      containsSub (normalize resumeText) s = true := by
  have hne : parseSkills jobSkillsString ≠ [] := fun h0 => by
    rw [h0] at hs
    exact absurd hs (List.not_mem_nil s)
  rw [matchResumeToJob_of_ne _ _ hne]
  simp [List.mem_filter, hs]

/-- Witness for `matched_iff_substring`: résumé `"I know javascript
well"` with required skill `"java"`; the substring collision makes
`"java"` a matched skill. -/
theorem matched_iff_substring_witness :
    "java".data ∈ parseSkills "java".data ∧
    ("java".data ∈
        (matchResumeToJob "I know javascript well".data "java".data).matchedSkills ↔
      containsSub (normalize "I know javascript well".data) "java".data = true) ∧
    "java".data ∈
      (matchResumeToJob "I know javascript well".data "java".data).matchedSkills :=
  ⟨by decide, matched_iff_substring _ _ _ (by decide), by decide⟩

/-- **C3**: skill parsing does not deduplicate: `"React, React, Node"`
parses to a three-element list in which `"react"` appears twice, and both
duplicate entries count in the score denominator (two of three entries
matched gives `round(200 / 3) = 67`). -/
theorem parseSkills_keeps_duplicates :
    parseSkills "React, React, Node".data =
      ["react".data, "react".data, "node".data] ∧
    (parseSkills "React, React, Node".data).length = 3 ∧
    List.count "react".data (parseSkills "React, React, Node".data) = 2 ∧
    matchResumeToJob "I know React only".data "React, React, Node".data =
      { matchScore := 67,
        matchedSkills := ["react".data, "react".data],
        missingSkills := ["node".data] } :=
  ⟨by decide, by decide, by decide, by decide⟩

/-- **C10**: a parsed skill token containing a character that is not an
ASCII lowercase letter, not a digit, and not whitespace (such as the `+`
of `"c++"`) is never matched: résumé normalisation erases every such
character, so the token cannot occur in the normalised résumé, and it
always lands in `missingSkills`. -/
theorem symbol_skill_never_matched (resumeText jobSkillsString s : Str) (c : Char)
    (hs : s ∈ parseSkills jobSkillsString) (hc : c ∈ s)
    (hlow : ¬('a' ≤ c ∧ c ≤ 'z')) (hdig : ¬('0' ≤ c ∧ c ≤ '9'))
    (hws : isJsWs c = false) :
    s ∈ (matchResumeToJob resumeText jobSkillsString).missingSkills ∧
      s ∉ (matchResumeToJob resumeText jobSkillsString).matchedSkills := by
  have hne : parseSkills jobSkillsString ≠ [] := fun h0 => by
    rw [h0] at hs
    exact absurd hs (List.not_mem_nil s)
  have hsub : containsSub (normalize resumeText) s = false := by
    by_contra hh
    have htrue : containsSub (normalize resumeText) s = true := by
      simpa using hh
    have hmem := containsSub_mem _ _ htrue c hc
    rcases normalize_chars resumeText c hmem with h | h | h | h
    · exact hlow h
    · exact hdig h
    · exact parseSkills_no_comma _ _ hs c hc h
    · rw [h] at hws
      simp [isJsWs] at hws
  rw [matchResumeToJob_of_ne _ _ hne]
  constructor
  · simp [List.mem_filter, hs, hsub]
  · simp [List.mem_filter, hsub]

/-- Witness for `symbol_skill_never_matched`: the skill `"c++"` stays
missing even when the raw résumé text literally contains `c++`, because
normalisation turns the résumé's `c++` into `c`. -/
theorem symbol_skill_never_matched_witness :
    ("c++".data ∈ parseSkills "C++, Java".data ∧ '+' ∈ "c++".data ∧
      ¬('a' ≤ '+' ∧ '+' ≤ 'z') ∧ ¬('0' ≤ '+' ∧ '+' ≤ '9') ∧
      isJsWs '+' = false) ∧
    ("c++".data ∈
        (matchResumeToJob "expert in c++ and java".data "C++, Java".data).missingSkills ∧
      "c++".data ∉
        (matchResumeToJob "expert in c++ and java".data "C++, Java".data).matchedSkills) :=
  ⟨⟨by decide, by decide, by decide, by decide, by decide⟩,
   symbol_skill_never_matched "expert in c++ and java".data "C++, Java".data
     "c++".data '+' (by decide) (by decide) (by decide) (by decide) (by decide)⟩

/-! ## Lemmas about the applicant ranking -/

/-- Descending-score ordering between adjacent output entries. -/
def scoreGE (a b : ApplicantEntry) : Prop := b.matchScore ≤ a.matchScore

theorem mem_insertByScore (a y : ApplicantEntry) :
    ∀ l, y ∈ insertByScore a l ↔ y = a ∨ y ∈ l := by
  intro l
  induction l with
  | nil => simp [insertByScore]
  | cons x xs ih =>
    by_cases h : x.matchScore < a.matchScore
    · simp [insertByScore, h]
    · simp only [insertByScore, if_neg h, List.mem_cons, ih]
      tauto

theorem insertByScore_pairwise (a : ApplicantEntry) :
    ∀ l, l.Pairwise scoreGE → (insertByScore a l).Pairwise scoreGE := by
  intro l
  induction l with
  | nil => intro _; simp [insertByScore, List.pairwise_singleton]
  | cons x xs ih =>
    intro h
    rw [List.pairwise_cons] at h
    by_cases hx : x.matchScore < a.matchScore
    · rw [show insertByScore a (x :: xs) = a :: x :: xs by
        simp [insertByScore, hx]]
      rw [List.pairwise_cons]
      refine ⟨?_, List.pairwise_cons.mpr h⟩
      intro b hb
      rcases List.mem_cons.mp hb with rfl | hb'
      · exact Nat.le_of_lt hx
      · exact le_trans (h.1 b hb') (Nat.le_of_lt hx)
    · rw [show insertByScore a (x :: xs) = x :: insertByScore a xs by
        simp [insertByScore, hx]]
      rw [List.pairwise_cons]
      refine ⟨?_, ih h.2⟩
      intro b hb
      rcases (mem_insertByScore a b xs).mp hb with rfl | hb'
      · exact Nat.le_of_not_lt hx
      · exact h.1 b hb'

theorem insertByScore_filter (a : ApplicantEntry) (k : Nat) :
    ∀ l, l.Pairwise scoreGE →
      (insertByScore a l).filter (fun x => x.matchScore == k) =
        l.filter (fun x => x.matchScore == k) ++
          (if a.matchScore = k then [a] else []) := by
  intro l
  induction l with
  | nil =>
    intro _
    by_cases hk : a.matchScore = k <;>
      simp [insertByScore, List.filter_cons, hk]
  | cons x xs ih =>
    intro h
    rw [List.pairwise_cons] at h
    by_cases hx : x.matchScore < a.matchScore
    · rw [show insertByScore a (x :: xs) = a :: x :: xs by
        simp [insertByScore, hx]]
      by_cases hk : a.matchScore = k
      · have hnil : (x :: xs).filter (fun y => y.matchScore == k) = [] := by
          rw [List.filter_eq_nil_iff]
          intro y hy
          have hlt : y.matchScore < a.matchScore := by
            rcases List.mem_cons.mp hy with rfl | hy'
            · exact hx
            · exact Nat.lt_of_le_of_lt (h.1 y hy') hx
          simp only [beq_iff_eq]
          omega
        simp [List.filter_cons, hk, hnil]
      · simp [List.filter_cons, hk]
    · rw [show insertByScore a (x :: xs) = x :: insertByScore a xs by
        simp [insertByScore, hx]]
      by_cases hxk : (x.matchScore == k) = true <;>
        simp [List.filter_cons, hxk, ih h.2]

theorem sortAux_pairwise (l : List ApplicantEntry) :
    ∀ acc, acc.Pairwise scoreGE →
      (l.foldl (fun acc a => insertByScore a acc) acc).Pairwise scoreGE := by
  induction l with
  | nil => intro acc h; exact h
  | cons a l ih => intro acc h; exact ih _ (insertByScore_pairwise a acc h)

theorem sortAux_filter (k : Nat) (l : List ApplicantEntry) :
    ∀ acc, acc.Pairwise scoreGE →
      (l.foldl (fun acc a => insertByScore a acc) acc).filter
          (fun x => x.matchScore == k) =
        acc.filter (fun x => x.matchScore == k) ++
          l.filter (fun x => x.matchScore == k) := by
  induction l with
  | nil => intro acc _; simp
  | cons a l ih =>
    intro acc h
    rw [List.foldl_cons, ih _ (insertByScore_pairwise a acc h),
      insertByScore_filter a k acc h]
    by_cases hk : a.matchScore = k <;>
      simp [List.filter_cons, hk, List.append_assoc]

theorem sortByScoreDesc_pairwise (l : List ApplicantEntry) :
    (sortByScoreDesc l).Pairwise scoreGE :=
  sortAux_pairwise l [] List.Pairwise.nil

theorem sortByScoreDesc_filter (l : List ApplicantEntry) (k : Nat) :
    (sortByScoreDesc l).filter (fun x => x.matchScore == k) =
      l.filter (fun x => x.matchScore == k) := by
  simpa [sortByScoreDesc] using sortAux_filter k l [] List.Pairwise.nil

theorem mem_sortByScoreDesc (e : ApplicantEntry) (l : List ApplicantEntry) :
    e ∈ sortByScoreDesc l ↔ e ∈ l := by
  have h := sortByScoreDesc_filter l e.matchScore
  constructor
  · intro he
    have h1 : e ∈ (sortByScoreDesc l).filter (fun x => x.matchScore == e.matchScore) :=
      List.mem_filter.mpr ⟨he, by simp⟩
    rw [h] at h1
    exact (List.mem_filter.mp h1).1
  · intro he
    have h1 : e ∈ l.filter (fun x => x.matchScore == e.matchScore) :=
      List.mem_filter.mpr ⟨he, by simp⟩
    rw [← h] at h1
    exact (List.mem_filter.mp h1).1

theorem buildApplicants_go (users : Str → Option UserRec) (jobSkills : Str) :
    ∀ (resumes : List (Str × Str)) (acc : List ApplicantEntry) (e : ApplicantEntry),
      e ∈ List.foldl
        (fun acc r =>
          match users r.1 with
          | some u =>
            if u.role = jobSeekerRole then
              let m := matchResumeToJob r.2 jobSkills
              acc ++ [{ userId := r.1, email := u.email,
                        matchScore := m.matchScore,
                        matchedSkills := m.matchedSkills }]
            else acc
          | none => acc)
        acc resumes →
      e ∈ acc ∨ ∃ u, users e.userId = some u ∧ u.role = jobSeekerRole := by
  intro resumes
  induction resumes with
  | nil => intro acc e he; exact Or.inl he
  | cons r rs ih =>
    intro acc e he
    rw [List.foldl_cons] at he
    rcases hu : users r.1 with _ | u
    · rw [hu] at he
      dsimp only at he
      exact ih _ e he
    · rw [hu] at he
      dsimp only at he
      by_cases hrole : u.role = jobSeekerRole
      · rw [if_pos hrole] at he
        rcases ih _ e he with hacc | hP
        · rcases List.mem_append.mp hacc with h1 | h2
          · exact Or.inl h1
          · right
            rw [List.mem_singleton] at h2
            subst h2
            exact ⟨u, hu, hrole⟩
        · exact Or.inr hP
      · rw [if_neg hrole] at he
        exact ih _ e he

theorem buildApplicants_mem (resumes : List (Str × Str))
    (users : Str → Option UserRec) (jobSkills : Str) (e : ApplicantEntry)
    (he : e ∈ buildApplicants resumes users jobSkills) :
    ∃ u, users e.userId = some u ∧ u.role = jobSeekerRole := by
  rcases buildApplicants_go users jobSkills resumes [] e he with h | h
  · exact absurd h (List.not_mem_nil e)
  · exact h

/-! ## Claim theorems about the applicant ranking -/

/-- **C4**: with the job resolved, the ranking endpoint returns the
applicant list sorted by `matchScore` descending; entries with equal
scores keep their relative snapshot order (for every score value `k`, the
subsequence of score-`k` entries of the output equals that of the
unsorted applicant list); and a second call with identical inputs
returns the identical result. -/
theorem rankApplicants_sorted_stable (jobs : Str → Option JobRec) (jobId : Str)
    (resumes : List (Str × Str)) (users : Str → Option UserRec)
    (job : JobRec) (hjob : jobs jobId = some job) :
    rankApplicants jobs jobId resumes users =
      Except.ok (sortByScoreDesc (buildApplicants resumes users job.skills)) ∧
    (sortByScoreDesc (buildApplicants resumes users job.skills)).Pairwise scoreGE ∧
    (∀ k : Nat,
      (sortByScoreDesc (buildApplicants resumes users job.skills)).filter
          (fun x => x.matchScore == k) =
        (buildApplicants resumes users job.skills).filter
          (fun x => x.matchScore == k)) ∧
    rankApplicants jobs jobId resumes users = rankApplicants jobs jobId resumes users := by
  refine ⟨?_, sortByScoreDesc_pairwise _, fun k => sortByScoreDesc_filter _ k, rfl⟩
  simp [rankApplicants, hjob]

/-- Witness for `rankApplicants_sorted_stable`: a two-job-seeker snapshot
with equal inputs, at a concrete resolved job. -/
theorem rankApplicants_sorted_stable_witness :
    ((fun _ : Str => some { skills := "react".data : JobRec }) "j1".data =
      some { skills := "react".data : JobRec }) ∧
    (rankApplicants (fun _ => some { skills := "react".data }) "j1".data
        [("u1".data, "i know react".data), ("u2".data, "python".data)]
        (fun _ => some { email := "e".data, role := "Job Seeker".data }) =
      Except.ok (sortByScoreDesc (buildApplicants
        [("u1".data, "i know react".data), ("u2".data, "python".data)]
        (fun _ => some { email := "e".data, role := "Job Seeker".data })
        "react".data)) ∧
    (sortByScoreDesc (buildApplicants
        [("u1".data, "i know react".data), ("u2".data, "python".data)]
        (fun _ => some { email := "e".data, role := "Job Seeker".data })
        "react".data)).Pairwise scoreGE ∧
    (∀ k : Nat,
      (sortByScoreDesc (buildApplicants
          [("u1".data, "i know react".data), ("u2".data, "python".data)]
          (fun _ => some { email := "e".data, role := "Job Seeker".data })
          "react".data)).filter (fun x => x.matchScore == k) =
        (buildApplicants
          [("u1".data, "i know react".data), ("u2".data, "python".data)]
          (fun _ => some { email := "e".data, role := "Job Seeker".data })
          "react".data).filter (fun x => x.matchScore == k)) ∧
    rankApplicants (fun _ => some { skills := "react".data }) "j1".data
        [("u1".data, "i know react".data), ("u2".data, "python".data)]
        (fun _ => some { email := "e".data, role := "Job Seeker".data }) =
      rankApplicants (fun _ => some { skills := "react".data }) "j1".data
        [("u1".data, "i know react".data), ("u2".data, "python".data)]
        (fun _ => some { email := "e".data, role := "Job Seeker".data })) :=
  ⟨rfl, rankApplicants_sorted_stable _ _ _ _ _ rfl⟩

/-- **C9**: an unresolved job identifier fails with `JobNotFound` and no
partial list; with the job resolved, the operation succeeds, and every
candidate whose identity record is absent or whose role is not
`'Job Seeker'` is absent from the output. -/
theorem rankApplicants_filtering (jobs : Str → Option JobRec) (jobId : Str)
    (resumes : List (Str × Str)) (users : Str → Option UserRec) :
    (jobs jobId = none →
      rankApplicants jobs jobId resumes users =
        Except.error RankError.jobNotFound) ∧
    (∀ job, jobs jobId = some job →
      ∃ l, rankApplicants jobs jobId resumes users = Except.ok l ∧
        ∀ uid : Str,
          (users uid = none ∨ ∀ u, users uid = some u → u.role ≠ jobSeekerRole) →
          ∀ e ∈ l, e.userId ≠ uid) := by
  constructor
  · intro h
    simp [rankApplicants, h]
  · intro job hjob
    refine ⟨sortByScoreDesc (buildApplicants resumes users job.skills),
      by simp [rankApplicants, hjob], ?_⟩
    intro uid hu e he heq
    have he' := (mem_sortByScoreDesc e _).mp he
    rcases buildApplicants_mem resumes users job.skills e he' with ⟨u, hu1, hu2⟩
    rw [heq] at hu1
    rcases hu with h1 | h2
    · rw [h1] at hu1
      exact Option.noConfusion hu1
    · exact h2 u hu1 hu2

/-- Witness for `rankApplicants_filtering`: both failure modes at
concrete inputs — an unresolvable job id, and a resolved job with a
recruiter-role candidate who must be excluded. -/
theorem rankApplicants_filtering_witness :
    ((fun _ : Str => (none : Option JobRec)) "j0".data = none →
      rankApplicants (fun _ => none) "j0".data
          [("u1".data, "react".data)] (fun _ => none) =
        Except.error RankError.jobNotFound) ∧
    (∀ job, (fun _ : Str => some { skills := "react".data : JobRec }) "j1".data =
        some job →
      ∃ l, rankApplicants (fun _ => some { skills := "react".data }) "j1".data
          [("u1".data, "react".data)]
          (fun _ => some { email := "e".data, role := "Recruiter".data }) =
            Except.ok l ∧
        ∀ uid : Str,
          ((fun _ : Str => some { email := "e".data, role := "Recruiter".data : UserRec }) uid = none ∨
            ∀ u, (fun _ : Str => some { email := "e".data, role := "Recruiter".data : UserRec }) uid = some u →
              u.role ≠ jobSeekerRole) →
          ∀ e ∈ l, e.userId ≠ uid) :=
  ⟨fun _ =>
    (rankApplicants_filtering (fun _ => none) "j0".data
      [("u1".data, "react".data)] (fun _ => none)).1 rfl,
   fun job hjob =>
    (rankApplicants_filtering (fun _ => some { skills := "react".data }) "j1".data
      [("u1".data, "react".data)]
      (fun _ => some { email := "e".data, role := "Recruiter".data })).2 job hjob⟩

/-! ## Claim theorems about the AI content gateway -/

/-- **C5**: when the collaborator's raw text does not parse to a JSON
array (parse failure or a non-array value), the suggestions operation
still succeeds, with an empty suggestion list (and the one external call
already made). -/
theorem suggestions_malformed_yields_empty
    (store : Str → Option Str) (collab : Collaborator)
    (jsParse : Str → Option Json) (userId : Str) (allJobs : List JobInfo)
    (resumeText raw : Str)
    (huid : ¬userId.isEmpty) (hjobs : ¬allJobs.isEmpty)
    (hstore : store userId = some resumeText) (hres : ¬resumeText.isEmpty)
    (hcollab : collab suggestionsSystemPrompt (suggestionsQuery resumeText allJobs) =
      Except.ok raw)
    (hparse : ∀ ids, jsParse (jsTrim raw) ≠ some (Json.arr ids)) :
    suggestionsHandler store collab jsParse userId allJobs =
      (Except.ok [], 1) := by
  have h1 : (userId.isEmpty || allJobs.isEmpty) = false := by
    simp only [Bool.or_eq_false_iff]
    exact ⟨by simpa using huid, by simpa using hjobs⟩
  have h2 : resumeText.isEmpty = false := by simpa using hres
  rcases hp : jsParse (jsTrim raw) with _ | j
  · simp [suggestionsHandler, h1, hstore, h2, hcollab, hp]
  · cases j with
    | arr ids => exact absurd hp (hparse ids)
    | null => simp [suggestionsHandler, h1, hstore, h2, hcollab, hp]
    | bool b => simp [suggestionsHandler, h1, hstore, h2, hcollab, hp]
    | num n => simp [suggestionsHandler, h1, hstore, h2, hcollab, hp]
    | str s => simp [suggestionsHandler, h1, hstore, h2, hcollab, hp]
    | obj fields => simp [suggestionsHandler, h1, hstore, h2, hcollab, hp]

/-- Witness for `suggestions_malformed_yields_empty`: a collaborator
answering plain free text that `JSON.parse` rejects. -/
theorem suggestions_malformed_yields_empty_witness :
    (¬("u".data : Str).isEmpty ∧
      (∀ ids, (fun _ : Str => (none : Option Json)) (jsTrim "free text".data) ≠
        some (Json.arr ids))) ∧
    suggestionsHandler (fun _ => some "my resume".data)
        (fun _ _ => Except.ok "free text".data) (fun _ => none) "u".data
        [{ id := "j1".data, title := "t".data, skills := "s".data }] =
      (Except.ok [], 1) :=
  ⟨⟨by decide, fun ids h => Option.noConfusion h⟩,
   suggestions_malformed_yields_empty
     (fun _ => some "my resume".data) (fun _ _ => Except.ok "free text".data)
     (fun _ => none) "u".data
     [{ id := "j1".data, title := "t".data, skills := "s".data }]
     "my resume".data "free text".data
     (by decide) (by decide) rfl (by decide) rfl
     (fun ids h => Option.noConfusion h)⟩

/-- **C6**: each of the three AI operations, invoked for a candidate with
no stored résumé text (no record, or an empty stored text), fails with
`ResumeRequired` and performs zero calls to the external collaborator. -/
theorem ai_requires_resume (store : Str → Option Str) (collab : Collaborator)
    (jsParse : Str → Option Json)
    (userId jobTitle jobDescription company : Str) (allJobs : List JobInfo)
    (huid : ¬userId.isEmpty)
    (hstore : store userId = none ∨ store userId = some []) :
    coverLetterHandler store collab userId jobTitle jobDescription company =
      (Except.error AiError.resumeRequired, 0) ∧
    interviewHandler store collab userId jobTitle jobDescription =
      (Except.error AiError.resumeRequired, 0) ∧
    (¬allJobs.isEmpty →
      suggestionsHandler store collab jsParse userId allJobs =
        (Except.error AiError.resumeRequired, 0)) := by
  have h1 : userId.isEmpty = false := by simpa using huid
  rcases hstore with h | h <;>
    exact ⟨by simp [coverLetterHandler, h1, h],
           by simp [interviewHandler, h1, h],
           fun hj => by
             have h2 : allJobs.isEmpty = false := by simpa using hj
             simp [suggestionsHandler, h1, h2, h]⟩

/-- Witness for `ai_requires_resume`: a candidate with no stored résumé
record; all three operations fail with `ResumeRequired` after zero
collaborator calls. -/
theorem ai_requires_resume_witness :
    (¬("u".data : Str).isEmpty ∧
      (fun _ : Str => (none : Option Str)) "u".data = none) ∧
    (coverLetterHandler (fun _ => none) (fun _ _ => Except.ok "x".data)
        "u".data "t".data "d".data "c".data =
      (Except.error AiError.resumeRequired, 0) ∧
    interviewHandler (fun _ => none) (fun _ _ => Except.ok "x".data)
        "u".data "t".data "d".data =
      (Except.error AiError.resumeRequired, 0) ∧
    (¬([{ id := "j1".data, title := "t".data, skills := "s".data }] :
        List JobInfo).isEmpty →
      suggestionsHandler (fun _ => none) (fun _ _ => Except.ok "x".data)
          (fun _ => none) "u".data
          [{ id := "j1".data, title := "t".data, skills := "s".data }] =
        (Except.error AiError.resumeRequired, 0))) :=
  ⟨⟨by decide, rfl⟩,
   ai_requires_resume (fun _ => none) (fun _ _ => Except.ok "x".data)
     (fun _ => none) "u".data "t".data "d".data "c".data
     [{ id := "j1".data, title := "t".data, skills := "s".data }]
     (by decide) (Or.inl rfl)⟩

/-- Counterexample to **C8** as stated: with the job set containing only
id `"j1"`, a collaborator answer parsing to the four-element array
`["x1","x2","x3","x4"]` is returned verbatim as a successful suggestion
list — more than three entries, none drawn from the supplied set. -/
theorem suggestions_unvalidated_counterexample :
    suggestionsHandler (fun _ => some "my resume".data)
        (fun _ _ => Except.ok "raw".data)
        (fun _ => some (Json.arr [Json.str "x1".data, Json.str "x2".data,
          Json.str "x3".data, Json.str "x4".data]))
        "u".data [{ id := "j1".data, title := "t".data, skills := "s".data }] =
      (Except.ok [Json.str "x1".data, Json.str "x2".data, Json.str "x3".data,
        Json.str "x4".data], 1) ∧
    [Json.str "x1".data, Json.str "x2".data, Json.str "x3".data,
      Json.str "x4".data].length = 4 ∧
    ¬(4 ≤ 3) ∧
    "x1".data ∉ ["j1".data] :=
  ⟨rfl, rfl, by decide, by decide⟩

/-- **C8 (amended)**: the gateway does not validate the collaborator's
parsed array: whenever the raw text parses to a JSON array, the
successful result is exactly that array — the at-most-three and
drawn-from-the-candidate-set properties are only requested in the prompt,
never enforced. -/
theorem suggestions_returns_parsed_array
    (store : Str → Option Str) (collab : Collaborator)
    (jsParse : Str → Option Json) (userId : Str) (allJobs : List JobInfo)
    (resumeText raw : Str) (ids : List Json)
    (huid : ¬userId.isEmpty) (hjobs : ¬allJobs.isEmpty)
    (hstore : store userId = some resumeText) (hres : ¬resumeText.isEmpty)
    (hcollab : collab suggestionsSystemPrompt (suggestionsQuery resumeText allJobs) =
      Except.ok raw)
    (hparse : jsParse (jsTrim raw) = some (Json.arr ids)) :
    suggestionsHandler store collab jsParse userId allJobs =
      (Except.ok ids, 1) := by
  have h1 : (userId.isEmpty || allJobs.isEmpty) = false := by
    simp only [Bool.or_eq_false_iff]
    exact ⟨by simpa using huid, by simpa using hjobs⟩
  have h2 : resumeText.isEmpty = false := by simpa using hres
  simp [suggestionsHandler, h1, hstore, h2, hcollab, hparse]

/-- Witness for `suggestions_returns_parsed_array`: the four-element
array of the counterexample's scenario is passed straight through. -/
theorem suggestions_returns_parsed_array_witness :
    ((fun _ : Str => some (Json.arr [Json.str "x1".data, Json.str "x2".data,
        Json.str "x3".data, Json.str "x4".data])) (jsTrim "raw".data) =
      some (Json.arr [Json.str "x1".data, Json.str "x2".data,
        Json.str "x3".data, Json.str "x4".data])) ∧
    suggestionsHandler (fun _ => some "my resume".data)
        (fun _ _ => Except.ok "raw".data)
        (fun _ => some (Json.arr [Json.str "x1".data, Json.str "x2".data,
          Json.str "x3".data, Json.str "x4".data]))
        "u".data [{ id := "j1".data, title := "t".data, skills := "s".data }] =
      (Except.ok [Json.str "x1".data, Json.str "x2".data, Json.str "x3".data,
        Json.str "x4".data], 1) :=
  ⟨rfl,
   suggestions_returns_parsed_array (fun _ => some "my resume".data)
     (fun _ _ => Except.ok "raw".data)
     (fun _ => some (Json.arr [Json.str "x1".data, Json.str "x2".data,
       Json.str "x3".data, Json.str "x4".data]))
     "u".data [{ id := "j1".data, title := "t".data, skills := "s".data }]
     "my resume".data "raw".data
     [Json.str "x1".data, Json.str "x2".data, Json.str "x3".data,
       Json.str "x4".data]
     (by decide) (by decide) rfl (by decide) rfl rfl⟩

/-! ## Claim theorem about document extraction -/

/-- **C7**: extraction fails with the unsupported-format error whenever
the declared media type is none of the three recognised kinds; for a
supported media type whose parsed text has no non-whitespace character it
fails with the extraction-failed error; and for plain text with
non-blank content the output is exactly the UTF-8 decoding of the input
bytes. -/
theorem extractResumeText_contract (pdfParse docxParse : Bytes → Except Str Str)
    (utf8Decode : Bytes → Str) (fileMimeType : Str) (dataBuffer : Bytes) :
    (fileMimeType ≠ pdfMime → fileMimeType ≠ docxMime → fileMimeType ≠ textMime →
      extractResumeText pdfParse docxParse utf8Decode fileMimeType dataBuffer =
        Except.error unsupportedFormatMsg) ∧
    (∀ t : Str,
      (fileMimeType = pdfMime ∧ pdfParse dataBuffer = Except.ok t ∨
       fileMimeType = docxMime ∧ docxParse dataBuffer = Except.ok t ∨
       fileMimeType = textMime ∧ utf8Decode dataBuffer = t) →
      (jsTrim t).isEmpty = true →
      extractResumeText pdfParse docxParse utf8Decode fileMimeType dataBuffer =
        Except.error extractionFailedMsg) ∧
    (fileMimeType = textMime → ¬(jsTrim (utf8Decode dataBuffer)).isEmpty = true →
      extractResumeText pdfParse docxParse utf8Decode fileMimeType dataBuffer =
        Except.ok (utf8Decode dataBuffer)) := by
  have hdp : docxMime ≠ pdfMime := by decide
  have htp : textMime ≠ pdfMime := by decide
  have htd : textMime ≠ docxMime := by decide
  refine ⟨?_, ?_, ?_⟩
  · intro h1 h2 h3
    simp [extractResumeText, h1, h2, h3]
  · intro t hsrc htrim
    rcases hsrc with ⟨hm, hp⟩ | ⟨hm, hp⟩ | ⟨hm, hp⟩
    · subst hm
      simp [extractResumeText, hp, htrim]
    · subst hm
      simp [extractResumeText, hdp, hp, htrim]
    · subst hm
      simp [extractResumeText, htp, htd, hp, htrim]
  · intro hm htrim
    subst hm
    have h2 : (jsTrim (utf8Decode dataBuffer)).isEmpty = false := by
      simpa using htrim
    simp [extractResumeText, htp, htd, h2]

/-- Witness for `extractResumeText_contract`: an unrecognised media type
is rejected; an empty plain-text payload fails extraction; the payload
`"Hello World"` under the plain-text media type is returned exactly. -/
theorem extractResumeText_contract_witness :
    ("image/png".data ≠ pdfMime ∧ "image/png".data ≠ docxMime ∧
      "image/png".data ≠ textMime ∧
      extractResumeText (fun _ => Except.ok "x".data) (fun _ => Except.ok "x".data)
        (fun bs => bs.map Char.ofNat) "image/png".data [] =
        Except.error unsupportedFormatMsg) ∧
    (extractResumeText (fun _ => Except.ok "x".data) (fun _ => Except.ok "x".data)
        (fun bs => bs.map Char.ofNat) textMime [] =
      Except.error extractionFailedMsg) ∧
    (extractResumeText (fun _ => Except.ok "x".data) (fun _ => Except.ok "x".data)
        (fun bs => bs.map Char.ofNat) textMime
          ("Hello World".data.map Char.toNat) =
      Except.ok "Hello World".data) := by
  refine ⟨⟨by decide, by decide, by decide, ?_⟩, ?_, ?_⟩
  · exact (extractResumeText_contract (fun _ => Except.ok "x".data)
      (fun _ => Except.ok "x".data) (fun bs => bs.map Char.ofNat)
      "image/png".data []).1 (by decide) (by decide) (by decide)
  · exact (extractResumeText_contract (fun _ => Except.ok "x".data)
      (fun _ => Except.ok "x".data) (fun bs => bs.map Char.ofNat)
      textMime []).2.1 [] (Or.inr (Or.inr ⟨rfl, rfl⟩)) (by decide)
  · have h := (extractResumeText_contract (fun _ => Except.ok "x".data)
      (fun _ => Except.ok "x".data) (fun bs => bs.map Char.ofNat)
      textMime ("Hello World".data.map Char.toNat)).2.2 rfl (by decide)
    simpa using h

end SRA
